import Mathlib

/-!
Verification of the LatAm stress-map data-pipeline core.

The development shallowly embeds the pipeline's pure mathematics and its
orchestration logic:

* the scoring engine (`src/lib/cron` compute module: `normalizeScore`,
  `computeStressScore`), embedded polymorphically over a linear ordered
  field so that concrete evaluations run over `ℚ` while the orchestrator
  instantiates it at `ℝ`;
* the math kernel (rolling log-return std-dev, percentile, min-max
  normalization) embedded over `ℝ` (log/sqrt) and, for the percentile,
  over an arbitrary linear ordered field;
* the normalization builder's per-metric decision;
* the daily orchestrator (`runDailyUpdate`) as a deterministic state
  transformer over an explicit database value and an environment record
  that carries the outcome of every external fetch.

JavaScript floating-point numbers are modelled as exact field elements;
`Math.round(x)` is modelled as `⌊x + 1/2⌋` (round half toward plus
infinity), matching JS semantics on the values that occur here.
-/

set_option linter.unusedSectionVars false

namespace StressMap

/-- The six scored metric names (compute module `MetricName`). -/
inductive MetricName where
  | fx_vol
  | inflation
  | risk_spread
  | crypto_ratio
  | reserves_change
  | stablecoin_premium
deriving DecidableEq, Repr

open MetricName

/-- Iteration order of `Object.entries(WEIGHTS)` in the source: insertion
order of the `WEIGHTS` literal. -/
def metricOrder : List MetricName :=
  [fx_vol, inflation, risk_spread, crypto_ratio, reserves_change, stablecoin_premium]

section Engine

variable {α : Type} [LinearOrderedField α] [FloorRing α]

/-- Canonical weights (`WEIGHTS` in the compute module); they sum to 1. -/
def weightOf (m : MetricName) : α :=
  match m with
  | .fx_vol => 25 / 100
  | .inflation => 20 / 100
  | .risk_spread => 20 / 100
  | .crypto_ratio => 10 / 100
  | .reserves_change => 10 / 100
  | .stablecoin_premium => 15 / 100

/-- One row of `normalization_params` as consumed by the engine. -/
structure NormParam (α : Type) where
  metric_name : MetricName
  min_val : α
  max_val : α
deriving DecidableEq, Repr

/-- The transient raw-metric record (`RawMetrics`): one optional value per
metric, `none` standing for JS `null`/`undefined`. -/
structure RawMetrics (α : Type) where
  fx_vol : Option α := none
  inflation : Option α := none
  risk_spread : Option α := none
  crypto_ratio : Option α := none
  reserves_change : Option α := none
  stablecoin_premium : Option α := none
deriving DecidableEq, Repr

/-- Field access `metrics[metric]` of the source loop. -/
def RawMetrics.get (r : RawMetrics α) : MetricName → Option α
  | .fx_vol => r.fx_vol
  | .inflation => r.inflation
  | .risk_spread => r.risk_spread
  | .crypto_ratio => r.crypto_ratio
  | .reserves_change => r.reserves_change
  | .stablecoin_premium => r.stablecoin_premium

/-- Lookup in `new Map(normParams.map(p => [p.metric_name, p]))`: when the
same metric name occurs twice, the later row wins, exactly as for a JS
`Map` built from an entry list. -/
def lookupParam (ps : List (NormParam α)) (m : MetricName) : Option (NormParam α) :=
  ps.foldl (fun acc p => if p.metric_name = m then some p else acc) none

/-- Engine clamp-normalization (`normalizeScore`): `0.5` when
`max_val == min_val`, otherwise `(v − min)/(max − min)` clamped to
`[0, 1]` via `Math.max(0, Math.min(1, raw))`. -/
def normalizeScore (value min_val max_val : α) : α :=
  if max_val = min_val then 1 / 2
  else max 0 (min 1 ((value - min_val) / (max_val - min_val)))

/-- One element of the source's `available` array: metric, normalized
component and canonical weight. -/
structure AvailEntry (α : Type) where
  metric : MetricName
  normalized : α
  weight : α
deriving DecidableEq, Repr

/-- Outcome of the availability loop (step 1 of `computeStressScore`):
`available`, `missing` and the set of `<metric>_norm_missing` flags, each
in source push order. -/
structure ScanOut (α : Type) where
  available : List (AvailEntry α)
  missing : List MetricName
  norm_missing : List MetricName
deriving DecidableEq, Repr

/-- Step 1 of `computeStressScore`: walk the metrics in `WEIGHTS` order;
a metric with a `null` value is missing; a metric with a value but no
normalization parameter is missing and raises its `norm_missing` flag;
otherwise its clamp-normalized component joins `available`. -/
def scanMetrics (metrics : RawMetrics α) (ps : List (NormParam α)) :
    List MetricName → ScanOut α
  | [] => ⟨[], [], []⟩
  | m :: rest =>
    let out := scanMetrics metrics ps rest
    match metrics.get m with
    | none => ⟨out.available, m :: out.missing, out.norm_missing⟩
    | some v =>
      match lookupParam ps m with
      | none => ⟨out.available, m :: out.missing, m :: out.norm_missing⟩
      | some p =>
        ⟨⟨m, normalizeScore v p.min_val p.max_val, weightOf m⟩ :: out.available,
          out.missing, out.norm_missing⟩

/-- The engine's audit flags (`data_flags`). A boolean `false` / empty
list stands for the corresponding key being absent from the JS object. -/
structure DataFlags where
  partialFlag : Bool
  missing : List MetricName
  low_confidence : Bool
  norm_missing : List MetricName
deriving DecidableEq, Repr

/-- The engine's result record (`StressResult`). -/
structure StressResult (α : Type) where
  stress_score : α
  available_weight : α
  data_flags : DataFlags
deriving DecidableEq, Repr

/-- JS `Math.round`: round half toward plus infinity. -/
def jsRound (x : α) : ℤ := ⌊x + 1 / 2⌋

/-- The scoring engine `computeStressScore`: availability scan, zero-
available guard, weight redistribution `weight_i / availableWeight`,
final score `Math.round(weightedSum * 100 * 10) / 10`, and flags. -/
def computeStressScore (metrics : RawMetrics α) (ps : List (NormParam α)) :
    Option (StressResult α) :=
  let out := scanMetrics metrics ps metricOrder
  if out.available.length = 0 then none
  else
    let availableWeight := out.available.foldl (fun s c => s + c.weight) (0 : α)
    let weightedSum :=
      out.available.foldl (fun s c => s + c.weight / availableWeight * c.normalized) (0 : α)
    some
      { stress_score := (jsRound (weightedSum * 100 * 10) : α) / 10
        available_weight := (jsRound (availableWeight * 100) : α) / 100
        data_flags :=
          { partialFlag := !out.missing.isEmpty
            missing := out.missing
            low_confidence := decide (availableWeight < 1 / 2)
            norm_missing := out.norm_missing } }

/-- Sum of the adjusted weights (`adjustedWeight_i = weight_i /
availableWeight`) over the metrics the engine found available. -/
def adjustedWeightSum (metrics : RawMetrics α) (ps : List (NormParam α)) : α :=
  let out := scanMetrics metrics ps metricOrder
  let availableWeight := out.available.foldl (fun s c => s + c.weight) (0 : α)
  (out.available.map (fun c => c.weight / availableWeight)).sum

/-- The sibling per-component function `computeComponentScores`. -/
def computeComponentScores (metrics : RawMetrics α) (ps : List (NormParam α))
    (m : MetricName) : Option α :=
  match metrics.get m, lookupParam ps m with
  | some v, some p => some ((jsRound (normalizeScore v p.min_val p.max_val * 100 * 10) : α) / 10)
  | _, _ => none

/-- The math kernel's clamp-normalization `normalizeMinMax` (rolling
utilities module): returns `0` — not `0.5` — when `max == min`. -/
def normalizeMinMax (value minv maxv : α) : α :=
  if maxv = minv then 0
  else min 1 (max 0 ((value - minv) / (maxv - minv)))

lemma foldl_add_map {β : Type} (f : β → α) :
    ∀ (l : List β) (s : α), l.foldl (fun a c => a + f c) s = s + (l.map f).sum
  | [], s => by simp
  | x :: xs, s => by
    simp only [List.foldl_cons, List.map_cons, List.sum_cons]
    rw [foldl_add_map f xs (s + f x), add_assoc]

lemma sum_map_div {β : Type} (f : β → α) (d : α) :
    ∀ l : List β, (l.map (fun c => f c / d)).sum = (l.map f).sum / d
  | [] => by simp
  | x :: xs => by
    simp only [List.map_cons, List.sum_cons, sum_map_div f d xs, add_div]

lemma normalizeScore_nonneg (v lo hi : α) : 0 ≤ normalizeScore v lo hi := by
  unfold normalizeScore
  split
  · norm_num
  · exact le_max_left 0 _

lemma normalizeScore_le_one (v lo hi : α) : normalizeScore v lo hi ≤ 1 := by
  unfold normalizeScore
  split
  · norm_num
  · exact max_le (by norm_num) (min_le_left 1 _)

lemma weightOf_pos (m : MetricName) : 0 < (weightOf m : α) := by
  cases m <;> norm_num [weightOf]

/-- Every entry of the engine's `available` array carries its metric's
canonical weight, a normalized component in `[0, 1]`, and witnesses both
a present raw value and a matching normalization parameter. -/
lemma scan_avail_mem (metrics : RawMetrics α) (ps : List (NormParam α)) :
    ∀ ms : List MetricName, ∀ e ∈ (scanMetrics metrics ps ms).available,
      e.weight = weightOf e.metric ∧ 0 ≤ e.normalized ∧ e.normalized ≤ 1 ∧
      (metrics.get e.metric).isSome ∧ (lookupParam ps e.metric).isSome := by
  intro ms
  induction ms with
  | nil => intro e he; simp [scanMetrics] at he
  | cons m rest ih =>
    intro e he
    simp only [scanMetrics] at he
    cases hv : metrics.get m with
    | none => rw [hv] at he; exact ih e he
    | some v =>
      rw [hv] at he
      cases hp : lookupParam ps m with
      | none => rw [hp] at he; exact ih e he
      | some p =>
        rw [hp] at he
        rcases List.mem_cons.mp he with rfl | hmem
        · exact ⟨rfl, normalizeScore_nonneg _ _ _, normalizeScore_le_one _ _ _,
            by rw [hv]; rfl, by rw [hp]; rfl⟩
        · exact ih e hmem

/-- A metric whose raw value is `null` or which lacks a normalization
parameter ends up in the `missing` list. -/
lemma scan_missing_mem (metrics : RawMetrics α) (ps : List (NormParam α)) :
    ∀ ms : List MetricName, ∀ m ∈ ms,
      (metrics.get m = none ∨ lookupParam ps m = none) →
      m ∈ (scanMetrics metrics ps ms).missing := by
  intro ms
  induction ms with
  | nil => intro m hm; simp at hm
  | cons m' rest ih =>
    intro m hm hdata
    simp only [scanMetrics]
    rcases List.mem_cons.mp hm with rfl | hmem
    · cases hv : metrics.get m with
      | none => simp
      | some v =>
        cases hp : lookupParam ps m with
        | none => simp
        | some p =>
          rcases hdata with h | h
          · rw [hv] at h; cases h
          · rw [hp] at h; cases h
    · cases hv : metrics.get m' with
      | none => exact List.mem_cons_of_mem _ (ih m hmem hdata)
      | some v =>
        cases hp : lookupParam ps m' with
        | none => exact List.mem_cons_of_mem _ (ih m hmem hdata)
        | some p => exact ih m hmem hdata

/-- A metric with a present raw value but no normalization parameter gets
its `<metric>_norm_missing` flag raised. -/
lemma scan_norm_missing_mem (metrics : RawMetrics α) (ps : List (NormParam α)) :
    ∀ ms : List MetricName, ∀ m ∈ ms,
      (metrics.get m).isSome → lookupParam ps m = none →
      m ∈ (scanMetrics metrics ps ms).norm_missing := by
  intro ms
  induction ms with
  | nil => intro m hm; simp at hm
  | cons m' rest ih =>
    intro m hm hval hp
    simp only [scanMetrics]
    rcases List.mem_cons.mp hm with rfl | hmem
    · cases hv : metrics.get m with
      | none => rw [hv] at hval; cases hval
      | some v => rw [hp]; simp
    · cases hv : metrics.get m' with
      | none => exact ih m hmem hval hp
      | some v =>
        cases hp' : lookupParam ps m' with
        | none => exact List.mem_cons_of_mem _ (ih m hmem hval hp)
        | some p => exact ih m hmem hval hp

/-- When no listed parameter carries metric `m`, the JS `Map` lookup for
`m` yields nothing. -/
lemma lookupParam_eq_none (m : MetricName) :
    ∀ ps : List (NormParam α), (∀ p ∈ ps, p.metric_name ≠ m) →
      lookupParam ps m = none := by
  have aux : ∀ (ps : List (NormParam α)) (acc : Option (NormParam α)),
      (∀ p ∈ ps, p.metric_name ≠ m) →
      ps.foldl (fun acc p => if p.metric_name = m then some p else acc) acc = acc := by
    intro ps
    induction ps with
    | nil => intro acc _; rfl
    | cons q qs ih =>
      intro acc h
      simp only [List.foldl_cons]
      rw [if_neg (h q (List.mem_cons_self q qs)), ih acc fun p hp => h p (List.mem_cons_of_mem q hp)]
  intro ps h
  exact aux ps none h

/-- When every metric lacks either its raw value or its parameter, the
availability scan returns an empty `available` array. -/
lemma scan_avail_empty (metrics : RawMetrics α) (ps : List (NormParam α)) :
    ∀ ms : List MetricName,
      (∀ m ∈ ms, metrics.get m = none ∨ lookupParam ps m = none) →
      (scanMetrics metrics ps ms).available = [] := by
  intro ms
  induction ms with
  | nil => intro _; rfl
  | cons m rest ih =>
    intro h
    simp only [scanMetrics]
    cases hv : metrics.get m with
    | none => exact ih fun m' hm' => h m' (List.mem_cons_of_mem m hm')
    | some v =>
      cases hp : lookupParam ps m with
      | none => exact ih fun m' hm' => h m' (List.mem_cons_of_mem m hm')
      | some p =>
        rcases h m (List.mem_cons_self m rest) with hc | hc
        · rw [hv] at hc; cases hc
        · rw [hp] at hc; cases hc

end Engine

/-! Concrete scoring inputs: the spec's "two-metric-only country"
scenario (fx_vol = 0.05 with bounds 0.01/0.04, inflation = 3.0 with
bounds 0/5, everything else null). -/

/-- Raw metrics of the two-metric scenario. -/
def c4metrics : RawMetrics ℚ := { fx_vol := some (5 / 100), inflation := some 3 }

/-- Normalization parameters of the two-metric scenario. -/
def c4params : List (NormParam ℚ) :=
  [⟨.fx_vol, 1 / 100, 4 / 100⟩, ⟨.inflation, 0, 5⟩]

/-- What the engine actually returns on the two-metric scenario. -/
def c4result : StressResult ℚ :=
  { stress_score := 822 / 10
    available_weight := 45 / 100
    data_flags :=
      { partialFlag := true
        missing := [.risk_spread, .crypto_ratio, .reserves_change, .stablecoin_premium]
        low_confidence := true
        norm_missing := [] } }

lemma c4_eval : computeStressScore c4metrics c4params = some c4result := by
  norm_num +decide [computeStressScore, scanMetrics, metricOrder, lookupParam,
    normalizeScore, weightOf, jsRound, RawMetrics.get, c4metrics, c4params, c4result]

/-- C1: whenever `computeStressScore` returns a result, the stress score
lies in `[0, 100]`, equals an integer number of tenths (one decimal
digit), and the adjusted weights of the available metrics sum to `1`
within `1e-9` (here: exactly). -/
theorem stress_score_bounds (metrics : RawMetrics ℚ) (ps : List (NormParam ℚ))
    (r : StressResult ℚ) (h : computeStressScore metrics ps = some r) :
    (0 ≤ r.stress_score ∧ r.stress_score ≤ 100) ∧
    (∃ k : ℤ, r.stress_score = (k : ℚ) / 10) ∧
    |adjustedWeightSum metrics ps - 1| ≤ 1 / 1000000000 := by
  unfold computeStressScore at h
  by_cases hlen : (scanMetrics metrics ps metricOrder).available.length = 0
  · simp [hlen] at h
  · simp only [hlen, if_false] at h
    set A := (scanMetrics metrics ps metricOrder).available with hA
    have hAne : A ≠ [] := fun hnil => hlen (by rw [hnil]; rfl)
    set AW := A.foldl (fun s c => s + c.weight) (0 : ℚ) with hAWdef
    have hAWsum : AW = (A.map (fun c => c.weight)).sum := by
      rw [hAWdef, foldl_add_map, zero_add]
    have hwpos : ∀ x ∈ A.map (fun c => c.weight), 0 < x := by
      intro x hx
      rcases List.mem_map.mp hx with ⟨e, he, rfl⟩
      have := scan_avail_mem metrics ps metricOrder e (hA ▸ he)
      rw [this.1]
      exact weightOf_pos e.metric
    have hAWpos : 0 < AW := by
      rw [hAWsum]
      exact List.sum_pos _ hwpos (by simpa using hAne)
    set WS := A.foldl (fun s c => s + c.weight / AW * c.normalized) (0 : ℚ) with hWSdef
    have hWSsum : WS = (A.map (fun c => c.weight / AW * c.normalized)).sum := by
      rw [hWSdef, foldl_add_map, zero_add]
    have hWS0 : 0 ≤ WS := by
      rw [hWSsum]
      refine List.sum_nonneg ?_
      intro x hx
      rcases List.mem_map.mp hx with ⟨e, he, rfl⟩
      have hm := scan_avail_mem metrics ps metricOrder e (hA ▸ he)
      have : 0 < e.weight := by rw [hm.1]; exact weightOf_pos e.metric
      exact mul_nonneg (div_nonneg this.le hAWpos.le) hm.2.1
    have hadj : (A.map (fun c => c.weight / AW)).sum = 1 := by
      rw [sum_map_div, ← hAWsum, div_self hAWpos.ne']
    have hWS1 : WS ≤ 1 := by
      rw [hWSsum, ← hadj]
      refine List.sum_le_sum ?_
      intro e he
      have hm := scan_avail_mem metrics ps metricOrder e (hA ▸ he)
      have hw : 0 ≤ e.weight / AW := by
        refine div_nonneg ?_ hAWpos.le
        rw [hm.1]
        exact (weightOf_pos e.metric).le
      exact mul_le_of_le_one_right hw hm.2.2.1
    have hscore : r.stress_score = (jsRound (WS * 100 * 10) : ℚ) / 10 := by
      rw [Option.some.injEq] at h
      rw [← h]
    have hfloor0 : 0 ≤ jsRound (WS * 100 * 10) := by
      unfold jsRound
      refine Int.floor_nonneg.mpr ?_
      nlinarith
    have hfloor1 : jsRound (WS * 100 * 10) ≤ 1000 := by
      unfold jsRound
      have h1 : WS * 100 * 10 + 1 / 2 ≤ (2001 : ℚ) / 2 := by nlinarith
      calc ⌊WS * 100 * 10 + 1 / 2⌋ ≤ ⌊(2001 : ℚ) / 2⌋ := Int.floor_le_floor h1
        _ = 1000 := by norm_num
    refine ⟨⟨?_, ?_⟩, ⟨jsRound (WS * 100 * 10), hscore⟩, ?_⟩
    · rw [hscore]
      positivity
    · rw [hscore]
      rw [div_le_iff₀ (by norm_num : (0 : ℚ) < 10)]
      calc (jsRound (WS * 100 * 10) : ℚ) ≤ 1000 := by exact_mod_cast hfloor1
        _ = 100 * 10 := by norm_num
    · show |(A.map (fun c => c.weight / AW)).sum - 1| ≤ 1 / 1000000000
      rw [hadj]
      norm_num

/-- C1 witness: the theorem applied to the concrete two-metric scenario. -/
theorem stress_score_bounds_witness :
    (0 ≤ c4result.stress_score ∧ c4result.stress_score ≤ 100) ∧
    (∃ k : ℤ, c4result.stress_score = (k : ℚ) / 10) ∧
    |adjustedWeightSum c4metrics c4params - 1| ≤ 1 / 1000000000 :=
  stress_score_bounds c4metrics c4params c4result c4_eval

/-- C2 counterexample: the math kernel's `normalizeMinMax` returns `0`,
not `0.5`, on degenerate bounds, refuting the claim that both
clamp-normalize implementations return `0.5` when `hi == lo`. -/
theorem degenerate_bounds_counterexample :
    normalizeMinMax (1 : ℚ) 2 2 = 0 ∧ normalizeMinMax (1 : ℚ) 2 2 ≠ 1 / 2 := by
  norm_num [normalizeMinMax]

/-- C2 amended: on `hi == lo` the scoring engine's `normalizeScore`
returns `0.5` while the math kernel's `normalizeMinMax` returns `0`. -/
theorem degenerate_bounds_value (v lo : ℚ) :
    normalizeScore v lo lo = 1 / 2 ∧ normalizeMinMax v lo lo = 0 := by
  constructor
  · unfold normalizeScore
    rw [if_pos rfl]
  · unfold normalizeMinMax
    rw [if_pos rfl]

/-- C4 counterexample: on the spec's two-metric scenario the engine
returns a stress score of `82.2`, not the claimed `81.1` (the spec's own
arithmetic — `(0.25·1.0 + 0.20·0.600)/0.45 = 0.8222…` — yields `82.2`). -/
theorem two_metric_scenario_counterexample :
    (computeStressScore c4metrics c4params).map (fun r => r.stress_score) =
      some (822 / 10) ∧ ((822 : ℚ) / 10) ≠ 811 / 10 := by
  rw [c4_eval]
  norm_num [c4result]

/-- C4 amended: the two-metric scenario scores `82.2` with
`available_weight = 0.45` and the `low_confidence` flag set. -/
theorem two_metric_scenario :
    computeStressScore c4metrics c4params = some c4result ∧
    c4result.stress_score = 822 / 10 ∧
    c4result.available_weight = 45 / 100 ∧
    c4result.data_flags.low_confidence = true :=
  ⟨c4_eval, rfl, rfl, rfl⟩

/-- C5: when no metric has both a non-null raw value and a matching
normalization parameter, the engine returns no result — `none`, which is
distinct from any scored result, in particular from a score of `0`. -/
theorem zero_available_no_result (metrics : RawMetrics ℚ) (ps : List (NormParam ℚ))
    (h : ∀ m : MetricName, metrics.get m = none ∨ lookupParam ps m = none) :
    computeStressScore metrics ps = none ∧
    ∀ r : StressResult ℚ, r.stress_score = 0 → computeStressScore metrics ps ≠ some r := by
  have hempty : (scanMetrics metrics ps metricOrder).available = [] :=
    scan_avail_empty metrics ps metricOrder fun m _ => h m
  have hnone : computeStressScore metrics ps = none := by
    unfold computeStressScore
    rw [if_pos (by rw [hempty]; rfl)]
  exact ⟨hnone, fun r _ hr => by rw [hnone] at hr; cases hr⟩

/-- C5 witness: the all-null record with no parameters. -/
theorem zero_available_no_result_witness :
    computeStressScore ({} : RawMetrics ℚ) [] = none ∧
    ∀ r : StressResult ℚ, r.stress_score = 0 →
      computeStressScore ({} : RawMetrics ℚ) [] ≠ some r :=
  zero_available_no_result {} [] (fun m => Or.inl (by cases m <;> rfl))

/-- The metric set of the normalization builder (`METRIC_CONFIG` key
order in the compute-normalization script). -/
def builderMetrics : List MetricName :=
  [.fx_vol, .inflation, .risk_spread, .crypto_ratio, .reserves_change]

/-- C10 amended: the normalization builder's metric set never includes
`stablecoin_premium` (only the stablecoin backfill script writes such a
row, for AR), and for every scoring call whose parameter list carries no
`stablecoin_premium` row, that metric is counted missing (never
available, so its 0.15 weight is redistributed) and, when its raw value
is non-null, its `norm_missing` flag is raised. -/
theorem stablecoin_premium_never_available :
    MetricName.stablecoin_premium ∉ builderMetrics ∧
    ∀ (metrics : RawMetrics ℚ) (ps : List (NormParam ℚ)),
      (∀ p ∈ ps, p.metric_name ≠ MetricName.stablecoin_premium) →
      MetricName.stablecoin_premium ∈ (scanMetrics metrics ps metricOrder).missing ∧
      (∀ e ∈ (scanMetrics metrics ps metricOrder).available,
        e.metric ≠ MetricName.stablecoin_premium) ∧
      ((metrics.get MetricName.stablecoin_premium).isSome →
        MetricName.stablecoin_premium ∈ (scanMetrics metrics ps metricOrder).norm_missing) := by
  refine ⟨by decide, ?_⟩
  intro metrics ps h
  have hlook : lookupParam ps MetricName.stablecoin_premium = none :=
    lookupParam_eq_none _ ps h
  have horder : MetricName.stablecoin_premium ∈ metricOrder := by decide
  refine ⟨scan_missing_mem metrics ps metricOrder _ horder (Or.inr hlook), ?_, ?_⟩
  · intro e he heq
    have := (scan_avail_mem metrics ps metricOrder e he).2.2.2.2
    rw [heq, hlook] at this
    cases this
  · intro hval
    exact scan_norm_missing_mem metrics ps metricOrder _ horder hval hlook

section Kernel

variable {α : Type} [LinearOrderedField α] [FloorRing α]

/-- The math kernel's `percentile` (linear interpolation over the sorted
copy, fractional index `p/100 · (len − 1)`). The source throws on an
empty input; the embedding's `getD` default is unreachable for nonempty
input because both interpolation indices stay inside the array. -/
def percentile (values : List α) (p : α) : α :=
  let sorted := List.insertionSort (· ≤ ·) values
  let idx := p / 100 * ((sorted.length : α) - 1)
  let lower := ⌊idx⌋
  let upper := ⌈idx⌉
  if lower = upper then sorted.getD lower.toNat 0
  else sorted.getD lower.toNat 0 +
    (sorted.getD upper.toNat 0 - sorted.getD lower.toNat 0) * (idx - (lower : α))

/-- The normalization builder's per-(country, metric) decision: skip when
fewer than 10 non-null samples exist, otherwise write the row
`(min_val, max_val) := (p5, p95)` of the value history. -/
def normParamFor (values : List α) : Option (α × α) :=
  if values.length < 10 then none
  else some (percentile values 5, percentile values 95)

lemma sorted_getD_mono (s : List α) (hs : s.Sorted (· ≤ ·)) (i j : ℕ)
    (hij : i ≤ j) (hj : j < s.length) : s.getD i 0 ≤ s.getD j 0 := by
  have hi : i < s.length := lt_of_le_of_lt hij hj
  rw [List.getD_eq_getElem s 0 hi, List.getD_eq_getElem s 0 hj]
  exact List.Sorted.rel_get_of_le hs (show (⟨i, hi⟩ : Fin s.length) ≤ ⟨j, hj⟩ from hij)

end Kernel

lemma replicate_builder_eval : normParamFor (List.replicate 10 (1 : ℚ)) = some (1, 1) := by
  have hc1 : ⌈(9 : ℚ) / 20⌉ = 1 := by rw [Int.ceil_eq_iff] <;> norm_num
  have hc2 : ⌈(171 : ℚ) / 20⌉ = 9 := by rw [Int.ceil_eq_iff] <;> norm_num
  have hf1 : ⌊(9 : ℚ) / 20⌋ = 0 := by norm_num
  have hf2 : ⌊(171 : ℚ) / 20⌋ = 8 := by norm_num
  norm_num [normParamFor, percentile, List.insertionSort, List.orderedInsert,
    List.replicate, hc1, hc2, hf1, hf2, List.getD,
    show Int.toNat 0 = 0 from rfl, show Int.toNat 1 = 1 from rfl,
    show Int.toNat 8 = 8 from rfl, show Int.toNat 9 = 9 from rfl]

/-- C8 counterexample: ten identical samples pass the builder's only
guard (sample count ≥ 10) and produce a written row with
`max_val = min_val`, refuting `max_val > min_val`. -/
theorem builder_degenerate_row_counterexample :
    normParamFor (List.replicate 10 (1 : ℚ)) = some (1, 1) ∧ ¬((1 : ℚ) < 1) :=
  ⟨replicate_builder_eval, by norm_num⟩

/-- C8 amended: every row the builder writes satisfies
`min_val ≤ max_val`; equality can occur for degenerate histories, which
the builder does not refuse. -/
theorem builder_row_ordered (values : List ℚ) (lo hi : ℚ)
    (h : normParamFor values = some (lo, hi)) : lo ≤ hi := by
  unfold normParamFor at h
  by_cases hlen : values.length < 10
  · rw [if_pos hlen] at h; cases h
  · rw [if_neg hlen] at h
    rw [Option.some.injEq, Prod.mk.injEq] at h
    obtain ⟨h1, h2⟩ := h
    subst h1
    subst h2
    push_neg at hlen
    set s := List.insertionSort (· ≤ ·) values with hsdef
    have hslen : s.length = values.length := List.length_insertionSort _ _
    have hsorted : s.Sorted (· ≤ ·) := List.sorted_insertionSort _ _
    have hn : (10 : ℚ) ≤ (s.length : ℚ) := by
      rw [hslen]; exact_mod_cast hlen
    set n : ℚ := (s.length : ℚ) with hndef
    set idx5 : ℚ := 5 / 100 * (n - 1) with h5def
    set idx95 : ℚ := 95 / 100 * (n - 1) with h95def
    have h5nonneg : 0 ≤ idx5 := by rw [h5def]; nlinarith
    have h95nonneg : 0 ≤ idx95 := by rw [h95def]; nlinarith
    have hgap : idx5 + 1 ≤ idx95 := by rw [h5def, h95def]; nlinarith
    have hceil5_le : ⌈idx5⌉ ≤ ⌊idx95⌋ := by
      rw [Int.ceil_le]
      have hsub : idx95 - 1 < (⌊idx95⌋ : ℚ) := Int.sub_one_lt_floor idx95
      linarith
    have hfl5_nonneg : 0 ≤ ⌊idx5⌋ := Int.floor_nonneg.mpr h5nonneg
    have hfl5_le_ceil : ⌊idx5⌋ ≤ ⌈idx5⌉ := Int.floor_le_ceil idx5
    have hfl95_nonneg : 0 ≤ ⌊idx95⌋ := Int.floor_nonneg.mpr h95nonneg
    have hceil95_lt : ⌈idx95⌉ < s.length := by
      have hle : idx95 ≤ n - 1 := by rw [h95def]; nlinarith
      have h1 : ⌈idx95⌉ ≤ ⌈n - 1⌉ := Int.ceil_le_ceil hle
      have h2 : ⌈n - 1⌉ = (s.length : ℤ) - 1 := by
        rw [hndef]
        rw [show ((s.length : ℚ) - 1) = (((s.length : ℤ) - 1 : ℤ) : ℚ) by push_cast; ring]
        exact Int.ceil_intCast _
      omega
    have hfl95_le_ceil : ⌊idx95⌋ ≤ ⌈idx95⌉ := Int.floor_le_ceil idx95
    have hfl95_lt : ⌊idx95⌋ < s.length := lt_of_le_of_lt hfl95_le_ceil hceil95_lt
    have hceil5_lt : ⌈idx5⌉ < s.length := lt_of_le_of_lt hceil5_le hfl95_lt
    -- value bounds for the p5 interpolation
    have hub5 : percentile values 5 ≤ s.getD (⌈idx5⌉).toNat 0 := by
      simp only [percentile]
      rw [← hsdef, ← hndef, ← h5def]
      split
      · next heq =>
          rw [heq]
      · next hne =>
          have hlu : s.getD (⌊idx5⌋).toNat 0 ≤ s.getD (⌈idx5⌉).toNat 0 := by
            refine sorted_getD_mono s hsorted _ _ ?_ ?_
            · exact Int.toNat_le_toNat hfl5_le_ceil
            · omega
          have ht1 : idx5 - (⌊idx5⌋ : ℚ) ≤ 1 := by
            have := Int.lt_floor_add_one idx5
            linarith
          nlinarith [sub_nonneg.mpr (Int.floor_le idx5)]
    have hlb95 : s.getD (⌊idx95⌋).toNat 0 ≤ percentile values 95 := by
      simp only [percentile]
      rw [← hsdef, ← hndef, ← h95def]
      split
      · next heq =>
          exact le_refl _
      · next hne =>
          have hlu : s.getD (⌊idx95⌋).toNat 0 ≤ s.getD (⌈idx95⌉).toNat 0 := by
            refine sorted_getD_mono s hsorted _ _ ?_ ?_
            · exact Int.toNat_le_toNat hfl95_le_ceil
            · omega
          nlinarith [sub_nonneg.mpr (Int.floor_le idx95)]
    have hmid : s.getD (⌈idx5⌉).toNat 0 ≤ s.getD (⌊idx95⌋).toNat 0 := by
      refine sorted_getD_mono s hsorted _ _ ?_ ?_
      · exact Int.toNat_le_toNat hceil5_le
      · omega
    exact le_trans hub5 (le_trans hmid hlb95)

/-- The math kernel's `stdDev`: the population standard deviation
(divisor `values.length`), returning `0` on an empty input. -/
noncomputable def stdDev (values : List ℝ) : ℝ :=
  if values.length = 0 then 0
  else
    let mean := values.foldl (fun a b => a + b) (0 : ℝ) / (values.length : ℝ)
    let variance :=
      values.foldl (fun sum v => sum + (v - mean) ^ 2) (0 : ℝ) / (values.length : ℝ)
    Real.sqrt variance

/-- Step 1 of `rollingLogReturnStdDev`: the log-return sequence, with a
leading `null` and a `null` wherever either neighbouring close is not
positive. -/
noncomputable def logReturns (closes : List ℝ) : List (Option ℝ) :=
  none :: (List.range (closes.length - 1)).map (fun i =>
    if 0 < closes.getD (i + 1) 0 ∧ 0 < closes.getD i 0 then
      some (Real.log (closes.getD (i + 1) 0 / closes.getD i 0))
    else none)

/-- The non-null log returns inside the window `[i − window, i)` used at
output position `i` (the JS `slice(i - window, i).filter(...)`). -/
noncomputable def windowReturns (closes : List ℝ) (window i : ℕ) : List ℝ :=
  (((logReturns closes).drop (i - window)).take window).filterMap id

/-- The math kernel's `rollingLogReturnStdDev`: same-length output;
position `i` is `null` when `i < window` or when fewer than 80% of the
window's log returns are non-null, and otherwise carries
`stdDev` of those non-null returns. -/
noncomputable def rollingLogReturnStdDev (closes : List ℝ) (window : ℕ := 30) :
    List (Option ℝ) :=
  (List.range (logReturns closes).length).map (fun i =>
    if i < window then none
    else
      if ((windowReturns closes window i).length : ℚ) < (window : ℚ) * (8 / 10) then none
      else some (stdDev (windowReturns closes window i)))

/-- Modelled from the spec: "the sample std-dev (divisor N−1) of
log(close[k]/close[k−1]) across the trailing window" — the sample
standard deviation used only to compare the spec's wording against the
code's `stdDev`. -/
noncomputable def sampleStdDev (values : List ℝ) : ℝ :=
  Real.sqrt (((values.map (fun v => (v - values.sum / values.length) ^ 2)).sum) /
    ((values.length : ℝ) - 1))

lemma foldl_add_id (l : List ℝ) : l.foldl (fun a b => a + b) (0 : ℝ) = l.sum := by
  have h := foldl_add_map (fun v : ℝ => v) l 0
  simpa using h

/-- The kernel's `stdDev` written with `List.sum`: the square root of the
mean squared deviation, divisor `values.length`. -/
lemma stdDev_formula (l : List ℝ) :
    stdDev l = Real.sqrt ((l.map (fun v => (v - l.sum / l.length) ^ 2)).sum / l.length) := by
  simp only [stdDev, foldl_add_id]
  split
  · next h =>
      rw [List.length_eq_zero.mp h]
      simp
  · next h =>
      rw [foldl_add_map, zero_add]

lemma logReturns_eval :
    logReturns [1, 1, Real.exp 1, Real.exp 1] = [none, some 0, some 1, some 0] := by
  have he : (0 : ℝ) < Real.exp 1 := Real.exp_pos 1
  have hne : Real.exp 1 ≠ 0 := ne_of_gt he
  unfold logReturns
  norm_num [show List.range 3 = [0, 1, 2] from rfl, List.getD, he, hne,
    Real.log_one, Real.log_exp]

lemma windowReturns_eval :
    windowReturns [1, 1, Real.exp 1, Real.exp 1] 2 3 = [0, 1] := by
  unfold windowReturns
  rw [logReturns_eval]
  rfl

lemma stdDev_eval : stdDev [(0 : ℝ), 1] = 1 / 2 := by
  unfold stdDev
  norm_num
  rw [show (4 : ℝ) = 2 ^ 2 from by norm_num, Real.sqrt_sq (by norm_num : (0 : ℝ) ≤ 2)]
  norm_num

lemma rolling_eval :
    (rollingLogReturnStdDev [1, 1, Real.exp 1, Real.exp 1] 2).get? 3 = some (some (1 / 2)) := by
  have hlen : (logReturns [1, 1, Real.exp 1, Real.exp 1]).length = 4 := by
    rw [logReturns_eval]
    rfl
  unfold rollingLogReturnStdDev
  rw [List.get?_map, hlen, List.get?_range (by norm_num : 3 < 4)]
  simp only [Option.map_some']
  rw [if_neg (by norm_num : ¬(3 < 2)), windowReturns_eval]
  rw [if_neg (by norm_num : ¬((([0, 1] : List ℝ).length : ℚ) < ((2 : ℕ) : ℚ) * (8 / 10)))]
  rw [stdDev_eval]

/-- C3 counterexample: on closes `[1, 1, e, e]` with window 2, output
position 3 is `0.5` — the population standard deviation of the window's
log returns `[0, 1]` — while their sample standard deviation (divisor
N−1) is `√(1/2) ≠ 0.5`; the claim fails whether the trailing window is
read as positions `[i−N, i)` (returns `[0, 1]`) or `(i−N, i]` (returns
`[1, 0]`). -/
theorem rolling_std_counterexample :
    (rollingLogReturnStdDev [1, 1, Real.exp 1, Real.exp 1] 2).get? 3 = some (some (1 / 2)) ∧
    sampleStdDev [0, 1] ≠ 1 / 2 ∧ sampleStdDev [1, 0] ≠ 1 / 2 := by
  have hs1 : sampleStdDev [0, 1] = Real.sqrt (1 / 2) := by
    unfold sampleStdDev
    norm_num
  have hs2 : sampleStdDev [1, 0] = Real.sqrt (1 / 2) := by
    unfold sampleStdDev
    norm_num
  have hne : Real.sqrt (1 / 2) ≠ 1 / 2 := by
    intro h
    have h2 := congrArg (fun x : ℝ => x ^ 2) h
    simp only at h2
    rw [Real.sq_sqrt (by norm_num : (0 : ℝ) ≤ 1 / 2)] at h2
    norm_num at h2
  exact ⟨rolling_eval, hs1 ▸ hne, hs2 ▸ hne⟩

/-- C3 amended: every non-null output position `i` of the rolling
log-return std-dev satisfies `window ≤ i`, has at least 80% non-null log
returns in its window, and equals the population standard deviation
(divisor: the number of non-null returns) of those returns — not the
sample standard deviation. -/
theorem rolling_std_characterization (closes : List ℝ) (window i : ℕ) (x : ℝ)
    (h : (rollingLogReturnStdDev closes window).get? i = some (some x)) :
    window ≤ i ∧
    (window : ℚ) * (8 / 10) ≤ ((windowReturns closes window i).length : ℚ) ∧
    x = Real.sqrt
      (((windowReturns closes window i).map
        (fun v => (v - (windowReturns closes window i).sum /
          (windowReturns closes window i).length) ^ 2)).sum /
        (windowReturns closes window i).length) := by
  unfold rollingLogReturnStdDev at h
  rw [List.get?_map] at h
  by_cases hi : i < (logReturns closes).length
  · rw [List.get?_range hi] at h
    simp only [Option.map_some'] at h
    by_cases hw : i < window
    · rw [if_pos hw] at h; cases Option.some.inj h
    · rw [if_neg hw] at h
      by_cases hq : ((windowReturns closes window i).length : ℚ) < (window : ℚ) * (8 / 10)
      · rw [if_pos hq] at h; cases Option.some.inj h
      · rw [if_neg hq] at h
        refine ⟨le_of_not_lt hw, le_of_not_lt hq, ?_⟩
        rw [← Option.some.inj (Option.some.inj h), stdDev_formula]
  · rw [List.get?_eq_none.mpr (by rw [List.length_range]; omega), Option.map_none'] at h
    cases h

/-- C3 witness: the characterization applied at the concrete evaluation
`closes = [1, 1, e, e]`, `window = 2`, position 3. -/
theorem rolling_std_characterization_witness :
    2 ≤ 3 ∧
    ((2 : ℚ)) * (8 / 10) ≤ ((windowReturns [1, 1, Real.exp 1, Real.exp 1] 2 3).length : ℚ) ∧
    (1 : ℝ) / 2 = Real.sqrt
      (((windowReturns [1, 1, Real.exp 1, Real.exp 1] 2 3).map
        (fun v => (v - (windowReturns [1, 1, Real.exp 1, Real.exp 1] 2 3).sum /
          (windowReturns [1, 1, Real.exp 1, Real.exp 1] 2 3).length) ^ 2)).sum /
        (windowReturns [1, 1, Real.exp 1, Real.exp 1] 2 3).length) :=
  rolling_std_characterization [1, 1, Real.exp 1, Real.exp 1] 2 3 (1 / 2) rolling_eval

/-- C8 witness: the theorem applied to a concrete 10-sample history. -/
theorem builder_row_ordered_witness :
    normParamFor (List.replicate 10 (1 : ℚ)) = some (1, 1) ∧ (1 : ℚ) ≤ 1 :=
  ⟨replicate_builder_eval,
    builder_row_ordered (List.replicate 10 (1 : ℚ)) 1 1 replicate_builder_eval⟩

/-- The stablecoin backfill script's normalization decision: it reads
the non-null `arg_blue_gap` proxy history for Argentina, requires at
least 5 samples and a non-degenerate distribution (`p5 < p95`, else it
aborts), and upserts the `(AR, stablecoin_premium)` normalization row
with the p5/p95 bounds rounded to 4 decimals. -/
def stablecoinNormRow (values : List ℚ) : Option (NormParam ℚ) :=
  if values.length < 5 then none
  else if percentile values 95 ≤ percentile values 5 then none
  else some ⟨.stablecoin_premium,
    (jsRound (percentile values 5 * 10000) : ℚ) / 10000,
    (jsRound (percentile values 95 * 10000) : ℚ) / 10000⟩

/-- A concrete proxy history for the stablecoin backfill. -/
def c10values : List ℚ := [0, 10, 20, 30, 40]

/-- The normalization row the backfill writes from `c10values`:
p5 = 2, p95 = 38. -/
def c10row : NormParam ℚ := ⟨.stablecoin_premium, 2, 38⟩

/-- A raw-metric record with only a stablecoin premium present. -/
def c10metrics : RawMetrics ℚ := { stablecoin_premium := some 20 }

lemma c10row_eval : stablecoinNormRow c10values = some c10row := by
  have hf5 : ⌊(1 : ℚ) / 5⌋ = 0 := by norm_num
  have hc5 : ⌈(1 : ℚ) / 5⌉ = 1 := by rw [Int.ceil_eq_iff] <;> norm_num
  have hf95 : ⌊(19 : ℚ) / 5⌋ = 3 := by norm_num
  have hc95 : ⌈(19 : ℚ) / 5⌉ = 4 := by rw [Int.ceil_eq_iff] <;> norm_num
  norm_num +decide [stablecoinNormRow, percentile, List.insertionSort,
    List.orderedInsert, c10values, c10row, jsRound, List.getD, hf5, hc5, hf95, hc95,
    show Int.toNat 0 = 0 from rfl, show Int.toNat 1 = 1 from rfl,
    show Int.toNat 3 = 3 from rfl, show Int.toNat 4 = 4 from rfl]

lemma c10_eval : computeStressScore c10metrics [c10row] =
    some { stress_score := 50
           available_weight := 15 / 100
           data_flags :=
             { partialFlag := true
               missing := [.fx_vol, .inflation, .risk_spread, .crypto_ratio, .reserves_change]
               low_confidence := true
               norm_missing := [] } } := by
  norm_num +decide [computeStressScore, scanMetrics, metricOrder, lookupParam,
    normalizeScore, weightOf, jsRound, RawMetrics.get, c10metrics, c10row]

/-- C10 counterexample: the stablecoin backfill script DOES write a
normalization-parameter row for `(AR, stablecoin_premium)` (here from
the proxy history `[0, 10, 20, 30, 40]`, giving bounds 2/38), and a
scoring call carrying that row with a non-null raw premium has the
metric available: it is not counted missing, no
`stablecoin_premium_norm_missing` flag is raised, and its 0.15 canonical
weight is counted in `availableWeight` instead of being redistributed —
refuting both "no normalization-parameter row is ever written for it"
and "for every scoring call, stablecoin_premium is counted as
missing". -/
theorem stablecoin_premium_backfill_counterexample :
    stablecoinNormRow c10values = some c10row ∧
    c10row.metric_name = MetricName.stablecoin_premium ∧
    MetricName.stablecoin_premium ∈
      ((scanMetrics c10metrics [c10row] metricOrder).available.map (fun e => e.metric)) ∧
    MetricName.stablecoin_premium ∉ (scanMetrics c10metrics [c10row] metricOrder).missing ∧
    (scanMetrics c10metrics [c10row] metricOrder).norm_missing = [] ∧
    (computeStressScore c10metrics [c10row]).map (fun r => r.available_weight) =
      some (15 / 100) := by
  refine ⟨c10row_eval, rfl, by decide, by decide, by decide, ?_⟩
  rw [c10_eval]
  rfl

/-- C10 witness: a record carrying a raw stablecoin premium but scored
with an empty parameter list. -/
theorem stablecoin_premium_never_available_witness :
    MetricName.stablecoin_premium ∈
      (scanMetrics ({ stablecoin_premium := some 1 } : RawMetrics ℚ) [] metricOrder).missing ∧
    (∀ e ∈ (scanMetrics ({ stablecoin_premium := some 1 } : RawMetrics ℚ) [] metricOrder).available,
      e.metric ≠ MetricName.stablecoin_premium) ∧
    (((({ stablecoin_premium := some 1 } : RawMetrics ℚ)).get MetricName.stablecoin_premium).isSome →
      MetricName.stablecoin_premium ∈
        (scanMetrics ({ stablecoin_premium := some 1 } : RawMetrics ℚ) [] metricOrder).norm_missing) := by
  have h := (stablecoin_premium_never_available.2
    ({ stablecoin_premium := some 1 } : RawMetrics ℚ) [] (by intro p hp; cases hp))
  exact ⟨h.1, h.2.1, fun _ => h.2.2 rfl⟩

/-!
The daily orchestrator (`runDailyUpdate`). Every external effect is made
explicit: an `Env` record carries the outcome of each outbound fetch and
the run's dates, and a `Db` value carries the two mutable tables
(`pipeline_log`, `metrics_daily`). Dates are modelled as natural numbers
ordered like the source's `YYYY-MM-DD` strings; wall-clock durations are
not modelled (`duration_ms = 0`). Log-table `detail` maps are modelled as
association lists of strings.
-/

/-- Result of the FX daily fetch (`FxDayResult`). -/
structure FxDayResult where
  date : ℕ
  close : ℝ
  arg_blue_gap : Option ℝ := none

/-- Result of the crypto fetch (`CryptoDayResult`). -/
structure CryptoDayResult where
  date : ℕ
  crypto_ratio : ℝ

/-- Result of the stablecoin-premium fetch (`StablecoinPremiumResult`). -/
structure StablecoinPremiumResult where
  date : ℕ
  premium : ℝ
  source_count : ℕ

/-- Result of the World Bank inflation fetch (`InflationResult`). -/
structure InflationResult where
  year : ℕ
  value : ℝ

/-- A row of the `countries` table as selected by the orchestrator. -/
structure Country where
  id : ℕ
  iso2 : String
  name : String

/-- A row of `normalization_params` as selected by the orchestrator. -/
structure NormRow where
  country_id : ℕ
  metric_name : MetricName
  min_val : ℝ
  max_val : ℝ

/-- Terminal status of a pipeline run; `partialRun` stands for the
source's string `'partial'`, `error` for `'error'`. -/
inductive RunStatus where
  | success
  | partialRun
  | error
deriving DecidableEq, Repr

/-- The orchestrator's country-level flags (`countryFlags` object).
`none` / `false` / `[]` stand for an absent key. -/
structure CountryFlags where
  stablecoin_sources : Option ℕ := none
  stablecoin_status : Option String := none
  inflation_source : Option String := none
  sovereign_source : Option String := none
  reserves_source : Option String := none
  partialFlag : Bool := false
  missing : List String := []

/-- The merged `finalFlags` object written into `data_flags`. -/
structure FinalFlags where
  stablecoin_sources : Option ℕ
  stablecoin_status : Option String
  inflation_source : Option String
  sovereign_source : Option String
  reserves_source : Option String
  partialFlag : Bool
  missing : List String
  low_confidence : Bool
  norm_missing : List MetricName

/-- A row of `metrics_daily`. `none` is SQL `NULL`. -/
structure DailyRow where
  country_id : ℕ
  date : ℕ
  fx_close : Option ℝ := none
  arg_blue_gap : Option ℝ := none
  inflation_yoy : Option ℝ := none
  sovereign_yield : Option ℝ := none
  us_10y : Option ℝ := none
  reserves_level : Option ℝ := none
  stablecoin_premium : Option ℝ := none
  fx_vol : Option ℝ := none
  inflation : Option ℝ := none
  risk_spread : Option ℝ := none
  crypto_ratio : Option ℝ := none
  reserves_change : Option ℝ := none
  stress_score : Option ℝ := none
  data_flags : Option FinalFlags := none
  updated_at : Option ℕ := none

/-- A row of `pipeline_log`. -/
structure LogRow where
  run_date : ℕ
  status : RunStatus
  detail : List (String × String)
  duration_ms : ℕ

/-- The two tables the orchestrator writes. -/
structure Db where
  pipeline_log : List LogRow
  metrics_daily : List DailyRow

/-- The orchestrator's return value (`PipelineResult`); the source's
optional `skipped` key is `false` when absent. -/
structure PipelineResult where
  run_date : ℕ
  status : RunStatus
  skipped : Bool
  countries_updated : ℕ
  duration_ms : ℕ
  detail : List (String × String)
  errors : List String

/-- The outcome of every external call made during one run: prelude
loads (`none` = store read failure), shared fetches, and the per-country
adapters, plus the run's UTC date, write-clock value and monthly flag,
and per-country upsert success. -/
structure Env where
  run_date : ℕ
  now : ℕ
  isMonthly : Bool
  countriesResult : Option (List Country)
  normResult : Option (List NormRow)
  cryptoDay : Option CryptoDayResult
  us10y : Option ℝ
  fxDay : String → Option FxDayResult
  stablecoin : String → ℝ → Option StablecoinPremiumResult
  inflationLatest : String → Option InflationResult
  sovereignFred : String → Option ℝ
  sovereignImf : String → Option ℝ
  reservesImf : String → Option ℝ
  upsertOk : ℕ → Bool

/-- `FRED_SOVEREIGN_SERIES` membership: only BR and MX have a FRED
series; the rest go through the IMF fallback. -/
def hasFredSeries (iso2 : String) : Bool :=
  iso2 == "BR" || iso2 == "MX"

/-- The guards of `fetchStablecoinPremium`: AR-only and a positive
official close, before the outbound call itself (`env.stablecoin`). -/
noncomputable def stablecoinFetch (env : Env) (iso2 : String) (close : ℝ) :
    Option StablecoinPremiumResult :=
  if iso2 ≠ "AR" then none
  else if close ≤ 0 then none
  else env.stablecoin iso2 close

/-- Source metric names as stored in flag payloads. -/
def metricStr : MetricName → String
  | .fx_vol => "fx_vol"
  | .inflation => "inflation"
  | .risk_spread => "risk_spread"
  | .crypto_ratio => "crypto_ratio"
  | .reserves_change => "reserves_change"
  | .stablecoin_premium => "stablecoin_premium"

/-- JS spread-merge `{...countryFlags, ...engineFlags}`: the engine only
emits `partial`/`missing` keys when its own missing list is nonempty, so
those override the country-level keys exactly in that case;
`low_confidence` and the `norm_missing` flags come only from the
engine. -/
def mergeFlags (cf : CountryFlags) (ef : Option DataFlags) : FinalFlags :=
  match ef with
  | none =>
    { stablecoin_sources := cf.stablecoin_sources
      stablecoin_status := cf.stablecoin_status
      inflation_source := cf.inflation_source
      sovereign_source := cf.sovereign_source
      reserves_source := cf.reserves_source
      partialFlag := cf.partialFlag
      missing := cf.missing
      low_confidence := false
      norm_missing := [] }
  | some f =>
    { stablecoin_sources := cf.stablecoin_sources
      stablecoin_status := cf.stablecoin_status
      inflation_source := cf.inflation_source
      sovereign_source := cf.sovereign_source
      reserves_source := cf.reserves_source
      partialFlag := if f.missing.isEmpty then cf.partialFlag else true
      missing := if f.missing.isEmpty then cf.missing else f.missing.map metricStr
      low_confidence := f.low_confidence
      norm_missing := f.norm_missing }

/-- The store read "latest row of this country with this column not
null" (`order by date desc, limit 1, maybeSingle`). -/
def lastWith (db : Db) (cid : ℕ) (proj : DailyRow → Option ℝ) : Option DailyRow :=
  (db.metrics_daily.filter (fun r => r.country_id == cid && (proj r).isSome)).foldl
    (fun acc r =>
      match acc with
      | none => some r
      | some b => if b.date < r.date then some r else some b) none

/-- The reserves look-back read: latest row with a reserves level inside
the 80–100-days-ago window. -/
def lastReservesWindow (db : Db) (cid lo hi : ℕ) : Option DailyRow :=
  (db.metrics_daily.filter (fun r =>
    r.country_id == cid && r.reserves_level.isSome && (lo ≤ r.date && r.date ≤ hi))).foldl
    (fun acc r =>
      match acc with
      | none => some r
      | some b => if b.date < r.date then some r else some b) none

/-- The last-30 fx closes read, newest first. -/
def recentCloses (db : Db) (cid : ℕ) : List ℝ :=
  ((List.insertionSort (fun a b : DailyRow => b.date ≤ a.date)
    (db.metrics_daily.filter (fun r => r.country_id == cid && r.fx_close.isSome))).take 30).filterMap
    (fun r => r.fx_close)

/-- The orchestrator's inline 30-day volatility: log returns of adjacent
closes (newest first), mean, variance with divisor `len − 1`, square
root. Requires at least two closes. When exactly two closes exist the
source divides zero by zero and stores NaN; the real-field model yields
`Real.sqrt 0 = 0` there. -/
noncomputable def fxVolOf (closes : List ℝ) : Option ℝ :=
  if 2 ≤ closes.length then
    let lr := (List.range (closes.length - 1)).map
      (fun i => Real.log (closes.getD i 0 / closes.getD (i + 1) 0))
    let mean := lr.foldl (fun a b => a + b) (0 : ℝ) / (lr.length : ℝ)
    let variance :=
      lr.foldl (fun s r => s + (r - mean) ^ 2) (0 : ℝ) / ((lr.length : ℝ) - 1)
    some (Real.sqrt variance)
  else none

/-- Step 5b2: the stablecoin premium after forward-fill and the daily
AR fetch. Returns `(premium, sources-flag, status-flag, missing?)`. -/
noncomputable def stablecoinStep (env : Env) (iso2 : String) (scPrev : Option ℝ)
    (fxDay : Option FxDayResult) : Option ℝ × Option ℕ × Option String × Bool :=
  match fxDay with
  | none => (scPrev, none, none, false)
  | some f =>
    match stablecoinFetch env iso2 f.close with
    | some r => (some r.premium, some r.source_count, none, false)
    | none =>
      if iso2 = "AR" then
        match scPrev with
        | some p => (some p, none, some "forward_filled", false)
        | none => (none, none, some "fetch_failed", true)
      else (scPrev, none, none, false)

/-- Step 5d, inflation: on a monthly run refetch the annual YoY and
recompute acceleration against the last stored YoY; otherwise carry the
forward-filled baselines. Returns `(yoy, accel, missing?)`. -/
noncomputable def inflationStep (env : Env) (iso2 : String) (yoy0 accel0 : Option ℝ) :
    Option ℝ × Option ℝ × Bool :=
  if env.isMonthly then
    match env.inflationLatest iso2 with
    | some r =>
      (some r.value,
        match yoy0 with
        | some prev => some (r.value - prev)
        | none => none,
        false)
    | none => (yoy0, accel0, true)
  else (yoy0, accel0, false)

/-- Step 5d, sovereign yield: FRED for BR/MX (a FRED failure is silent),
IMF for the rest (an IMF failure marks `risk_spread` missing); a fresh
yield recomputes the spread against today's US 10Y, which may be null.
Returns `(yield, spread, missing?)`. -/
noncomputable def sovereignStep (env : Env) (iso2 : String) (sov0 spread0 : Option ℝ) :
    Option ℝ × Option ℝ × Bool :=
  if env.isMonthly then
    if hasFredSeries iso2 then
      match env.sovereignFred iso2 with
      | some y => (some y, env.us10y.map (fun u => y - u), false)
      | none => (sov0, spread0, false)
    else
      match env.sovereignImf iso2 with
      | some y => (some y, env.us10y.map (fun u => y - u), false)
      | none => (sov0, spread0, true)
  else (sov0, spread0, false)

/-- Step 5d, reserves: on a monthly run refetch the level and recompute
the 90-day change against the 80–100-days-ago row (a zero or absent old
level yields a null change, mirroring the JS truthiness test).
Returns `(level, change, missing?)`. -/
noncomputable def reservesStep (env : Env) (db : Db) (iso2 : String) (cid : ℕ)
    (lev0 chg0 : Option ℝ) : Option ℝ × Option ℝ × Bool :=
  if env.isMonthly then
    match env.reservesImf iso2 with
    | some lvl =>
      let old := (lastReservesWindow db cid (env.run_date - 100) (env.run_date - 80)).bind
        (fun r => r.reserves_level)
      (some lvl,
        match old with
        | some o => if o = 0 then none else some ((lvl - o) / o * 100)
        | none => none,
        false)
    | none => (lev0, chg0, true)
  else (lev0, chg0, false)

/-- The per-country normalization parameters (`normByCountry` lookup). -/
def countryNormParams (normRows : List NormRow) (cid : ℕ) : List (NormParam ℝ) :=
  (normRows.filter (fun r => r.country_id == cid)).map
    (fun r => ⟨r.metric_name, r.min_val, r.max_val⟩)

/-- The payload record written by the upsert: `none` stands for a column
key absent from the JS object. -/
structure UpsertPayload where
  country_id : ℕ
  date : ℕ
  fx_close : Option ℝ
  arg_blue_gap : Option ℝ
  inflation_yoy : Option ℝ
  sovereign_yield : Option ℝ
  us_10y : Option ℝ
  reserves_level : Option ℝ
  stablecoin_premium : Option ℝ
  fx_vol : Option ℝ
  inflation : Option ℝ
  risk_spread : Option ℝ
  crypto_ratio : Option ℝ
  reserves_change : Option ℝ
  stress_score : Option ℝ
  data_flags : FinalFlags
  updated_at : ℕ

/-- The row payload assembled by one per-country iteration (steps 5a–5g
before the store write): a key (an optional column) is present exactly
when the corresponding fetched, recomputed or forward-filled value is,
while `data_flags` and `updated_at` are unconditionally present. -/
noncomputable def countryPayload (env : Env) (normRows : List NormRow) (db : Db)
    (c : Country) : UpsertPayload :=
  let normParams := countryNormParams normRows c.id
  let fxDay := env.fxDay c.iso2
  let lastInfl := lastWith db c.id (fun r => r.inflation_yoy)
  let lastSov := lastWith db c.id (fun r => r.risk_spread)
  let lastRes := lastWith db c.id (fun r => r.reserves_level)
  let lastStable := lastWith db c.id (fun r => r.stablecoin_premium)
  let sc := stablecoinStep env c.iso2 (lastStable.bind (fun r => r.stablecoin_premium)) fxDay
  let fx_vol := fxDay.bind (fun f => fxVolOf (f.close :: recentCloses db c.id))
  let infl := inflationStep env c.iso2 (lastInfl.bind (fun r => r.inflation_yoy))
    (lastInfl.bind (fun r => r.inflation))
  let sov := sovereignStep env c.iso2 (lastSov.bind (fun r => r.sovereign_yield))
    (lastSov.bind (fun r => r.risk_spread))
  let res := reservesStep env db c.iso2 c.id (lastRes.bind (fun r => r.reserves_level))
    (lastRes.bind (fun r => r.reserves_change))
  let missing : List String :=
    (if fxDay.isNone then ["fx_vol"] else []) ++
    (if sc.2.2.2 then ["stablecoin_premium"] else []) ++
    (if infl.2.2 then ["inflation"] else []) ++
    (if sov.2.2 then ["risk_spread"] else []) ++
    (if res.2.2 then ["reserves_change"] else [])
  let countryFlags : CountryFlags :=
    { stablecoin_sources := sc.2.1
      stablecoin_status := sc.2.2.1
      inflation_source := if infl.2.2 then some "fetch_failed" else none
      sovereign_source := if sov.2.2 then some "imf_unavailable" else none
      reserves_source := if res.2.2 then some "imf_unavailable" else none
      partialFlag := !missing.isEmpty
      missing := missing }
  let metrics : RawMetrics ℝ :=
    { fx_vol := fx_vol
      inflation := infl.2.1
      risk_spread := sov.2.1
      crypto_ratio := env.cryptoDay.map (fun r => r.crypto_ratio)
      reserves_change := res.2.1
      stablecoin_premium := sc.1 }
  let stressResult := computeStressScore metrics normParams
  { country_id := c.id
    date := (fxDay.map (fun f => f.date)).getD env.run_date
    fx_close := fxDay.map (fun f => f.close)
    arg_blue_gap := fxDay.bind (fun f => f.arg_blue_gap)
    inflation_yoy := infl.1
    sovereign_yield := sov.1
    us_10y := env.us10y
    reserves_level := res.1
    stablecoin_premium := sc.1
    fx_vol := fx_vol
    inflation := infl.2.1
    risk_spread := sov.2.1
    crypto_ratio := env.cryptoDay.map (fun r => r.crypto_ratio)
    reserves_change := res.2.1
    stress_score := stressResult.map (fun r => r.stress_score)
    data_flags := mergeFlags countryFlags (stressResult.map (fun r => r.data_flags))
    updated_at := env.now }

/-- Modelled from the spec: the persistence layer's partial-column merge
(§4.4) — a supplied column overwrites, an absent (`none`) column
preserves the stored value; the store itself is external to the
repository. -/
def mergeField (pv old : Option ℝ) : Option ℝ :=
  match pv with
  | some v => some v
  | none => old

/-- Modelled from the spec: the merged row after an upsert hits an
existing `(country, date)` row — `data_flags` and `updated_at` are always
rewritten. -/
def mergeRow (r : DailyRow) (p : UpsertPayload) : DailyRow :=
  { country_id := r.country_id
    date := r.date
    fx_close := mergeField p.fx_close r.fx_close
    arg_blue_gap := mergeField p.arg_blue_gap r.arg_blue_gap
    inflation_yoy := mergeField p.inflation_yoy r.inflation_yoy
    sovereign_yield := mergeField p.sovereign_yield r.sovereign_yield
    us_10y := mergeField p.us_10y r.us_10y
    reserves_level := mergeField p.reserves_level r.reserves_level
    stablecoin_premium := mergeField p.stablecoin_premium r.stablecoin_premium
    fx_vol := mergeField p.fx_vol r.fx_vol
    inflation := mergeField p.inflation r.inflation
    risk_spread := mergeField p.risk_spread r.risk_spread
    crypto_ratio := mergeField p.crypto_ratio r.crypto_ratio
    reserves_change := mergeField p.reserves_change r.reserves_change
    stress_score := mergeField p.stress_score r.stress_score
    data_flags := some p.data_flags
    updated_at := some p.updated_at }

/-- Modelled from the spec: a fresh row inserted when no `(country,
date)` row exists yet. -/
def newRowOf (p : UpsertPayload) : DailyRow :=
  { country_id := p.country_id
    date := p.date
    fx_close := p.fx_close
    arg_blue_gap := p.arg_blue_gap
    inflation_yoy := p.inflation_yoy
    sovereign_yield := p.sovereign_yield
    us_10y := p.us_10y
    reserves_level := p.reserves_level
    stablecoin_premium := p.stablecoin_premium
    fx_vol := p.fx_vol
    inflation := p.inflation
    risk_spread := p.risk_spread
    crypto_ratio := p.crypto_ratio
    reserves_change := p.reserves_change
    stress_score := p.stress_score
    data_flags := some p.data_flags
    updated_at := some p.updated_at }

/-- Modelled from the spec: `upsert(row, onConflict: country_id,date)` —
merge into the matching row when one exists, insert otherwise. -/
def applyUpsert (db : Db) (p : UpsertPayload) : Db :=
  if db.metrics_daily.any (fun r => r.country_id == p.country_id && r.date == p.date) then
    { db with metrics_daily := (db.metrics_daily.map (fun r =>
        if r.country_id == p.country_id && r.date == p.date then mergeRow r p else r)) }
  else
    { db with metrics_daily := newRowOf p :: db.metrics_daily }

/-- Mutable state threaded through the per-country loop. -/
structure LoopState where
  db : Db
  updated : ℕ
  errors : List String
  detail : List (String × String)

/-- One iteration of the per-country loop: build the payload, record an
fx-fetch error if any, upsert (counting the country as updated) or
record an upsert error. -/
noncomputable def countryStep (env : Env) (normRows : List NormRow) (s : LoopState)
    (c : Country) : LoopState :=
  let p := countryPayload env normRows s.db c
  let errs :=
    if (env.fxDay c.iso2).isNone then s.errors ++ [c.iso2 ++ ": fx fetch failed"]
    else s.errors
  if env.upsertOk c.id then
    { db := applyUpsert s.db p
      updated := s.updated + 1
      errors := errs
      detail := s.detail ++ [(c.iso2, "updated")] }
  else
    { db := s.db
      updated := s.updated
      errors := errs ++ [c.iso2 ++ ": upsert failed"]
      detail := s.detail }

/-- Step 6's status mapping: `success` when no errors, `partial` when
errors but at least one country updated, `error` otherwise. -/
def statusOf (errors : List String) (updated : ℕ) : RunStatus :=
  if errors = [] then .success
  else if 0 < updated then .partialRun
  else .error

/-- The idempotency-guard early return. -/
def skippedResult (d : ℕ) : PipelineResult :=
  { run_date := d
    status := .success
    skipped := true
    countries_updated := 0
    duration_ms := 0
    detail := [("reason", "already ran successfully today")]
    errors := [] }

/-- `buildError`: the fatal-prelude return value. It performs no store
write. -/
def fatalResult (d : ℕ) (msg : String) : PipelineResult :=
  { run_date := d
    status := .error
    skipped := false
    countries_updated := 0
    duration_ms := 0
    detail := [("fatal", msg)]
    errors := [msg] }

/-- Steps 3–6 (after a passed guard and a successful prelude): shared
fetches, per-country loop, then exactly one `pipeline_log` insert. -/
noncomputable def runMain (env : Env) (countries : List Country)
    (normRows : List NormRow) (db : Db) : Db × PipelineResult :=
  let errors0 :=
    (if env.cryptoDay.isNone then ["crypto fetch failed"] else []) ++
    (if env.us10y.isNone then ["us_10y fetch failed"] else [])
  let detail0 :=
    (if env.cryptoDay.isNone then [("crypto", "failed")] else []) ++
    (if env.us10y.isNone then [("us_10y", "failed")] else []) ++
    (if env.isMonthly then [("monthly_refresh", "true")] else [])
  let s := countries.foldl (countryStep env normRows) ⟨db, 0, errors0, detail0⟩
  let st := statusOf s.errors s.updated
  ({ s.db with pipeline_log := ⟨env.run_date, st, s.detail, 0⟩ :: s.db.pipeline_log },
    { run_date := env.run_date
      status := st
      skipped := false
      countries_updated := s.updated
      duration_ms := 0
      detail := s.detail
      errors := s.errors })

/-- `runDailyUpdate`: idempotency guard on a successful run logged for
today, then prelude loads (fatal on failure, no write), then the main
body. -/
noncomputable def runDailyUpdate (env : Env) (db : Db) : Db × PipelineResult :=
  if ∃ r ∈ db.pipeline_log, r.run_date = env.run_date ∧ r.status = RunStatus.success then
    (db, skippedResult env.run_date)
  else
    match env.countriesResult with
    | none => (db, fatalResult env.run_date "Failed to load countries")
    | some countries =>
      match env.normResult with
      | none => (db, fatalResult env.run_date "Failed to load normalization_params")
      | some normRows => runMain env countries normRows db

lemma applyUpsert_pipeline_log (db : Db) (p : UpsertPayload) :
    (applyUpsert db p).pipeline_log = db.pipeline_log := by
  unfold applyUpsert
  split <;> rfl

lemma countryStep_pipeline_log (env : Env) (normRows : List NormRow)
    (s : LoopState) (c : Country) :
    (countryStep env normRows s c).db.pipeline_log = s.db.pipeline_log := by
  simp only [countryStep]
  split
  · exact applyUpsert_pipeline_log _ _
  · rfl

lemma loop_pipeline_log (env : Env) (normRows : List NormRow) :
    ∀ (cs : List Country) (s : LoopState),
      (cs.foldl (countryStep env normRows) s).db.pipeline_log = s.db.pipeline_log
  | [], s => rfl
  | c :: rest, s => by
    rw [List.foldl_cons, loop_pipeline_log env normRows rest _,
      countryStep_pipeline_log]

lemma statusOf_success (errors : List String) (updated : ℕ) :
    statusOf errors updated = RunStatus.success ↔ errors = [] := by
  unfold statusOf
  split
  · next h => simp [h]
  · next h =>
      split <;> simp [h]

/-- The main body appends exactly one log row carrying the computed
status, and otherwise leaves `pipeline_log` untouched. -/
lemma runMain_spec (env : Env) (cs : List Country) (nr : List NormRow) (db : Db) :
    ∃ s : LoopState,
      runMain env cs nr db =
        ({ s.db with pipeline_log :=
            ⟨env.run_date, statusOf s.errors s.updated, s.detail, 0⟩ :: s.db.pipeline_log },
          { run_date := env.run_date
            status := statusOf s.errors s.updated
            skipped := false
            countries_updated := s.updated
            duration_ms := 0
            detail := s.detail
            errors := s.errors }) ∧
      s.db.pipeline_log = db.pipeline_log := by
  refine ⟨cs.foldl (countryStep env nr)
    ⟨db, 0,
      (if env.cryptoDay.isNone then ["crypto fetch failed"] else []) ++
        (if env.us10y.isNone then ["us_10y fetch failed"] else []),
      (if env.cryptoDay.isNone then [("crypto", "failed")] else []) ++
        (if env.us10y.isNone then [("us_10y", "failed")] else []) ++
        (if env.isMonthly then [("monthly_refresh", "true")] else [])⟩, rfl, ?_⟩
  exact loop_pipeline_log env nr cs _

/-- An empty database. -/
def dbEmpty : Db := ⟨[], []⟩

/-- A concrete environment whose prelude fails (countries load error):
the run is fatal. -/
def envFatal : Env :=
  { run_date := 1
    now := 1
    isMonthly := false
    countriesResult := none
    normResult := none
    cryptoDay := none
    us10y := none
    fxDay := fun _ => none
    stablecoin := fun _ _ => none
    inflationLatest := fun _ => none
    sovereignFred := fun _ => none
    sovereignImf := fun _ => none
    reservesImf := fun _ => none
    upsertOk := fun _ => true }

/-- A concrete environment whose prelude succeeds with no countries but
whose crypto fetch fails: the run completes with status `error`. -/
def envErr : Env :=
  { envFatal with
    countriesResult := some []
    normResult := some []
    us10y := some 1 }

/-- A concrete environment whose run completes with status `success`
(no countries, both shared fetches fine). -/
def envOk : Env :=
  { envFatal with
    countriesResult := some []
    normResult := some []
    cryptoDay := some ⟨1, 1⟩
    us10y := some 1 }

/-- C6 counterexample: after a completed first run that ended with
status `error` (shared crypto fetch failed, no country present), the
second same-day call is NOT skipped and writes a second log row,
refuting the claim for "any first run". -/
theorem second_run_after_error_counterexample :
    ((runDailyUpdate envErr (runDailyUpdate envErr dbEmpty).1).2.skipped = false) ∧
    (runDailyUpdate envErr (runDailyUpdate envErr dbEmpty).1).1.pipeline_log.length = 2 :=
  ⟨rfl, rfl⟩

/-- C6 amended: after a first run that completed with status `success`,
the second same-day call returns the skipped result (`skipped = true`,
`countries_updated = 0`) and performs no writes: the database value is
returned unchanged. -/
theorem second_run_skips (env : Env) (db : Db)
    (h : (runDailyUpdate env db).2.status = RunStatus.success) :
    runDailyUpdate env (runDailyUpdate env db).1 =
      ((runDailyUpdate env db).1, skippedResult env.run_date) := by
  by_cases hg : ∃ r ∈ db.pipeline_log, r.run_date = env.run_date ∧ r.status = RunStatus.success
  · have h1 : runDailyUpdate env db = (db, skippedResult env.run_date) := by
      unfold runDailyUpdate
      rw [if_pos hg]
    rw [h1]
    unfold runDailyUpdate
    rw [if_pos hg]
  · cases hc : env.countriesResult with
    | none =>
      have h1 : runDailyUpdate env db = (db, fatalResult env.run_date "Failed to load countries") := by
        unfold runDailyUpdate
        rw [if_neg hg, hc]
      rw [h1] at h
      simp [fatalResult] at h
    | some cs =>
      cases hn : env.normResult with
      | none =>
        have h1 : runDailyUpdate env db =
            (db, fatalResult env.run_date "Failed to load normalization_params") := by
          unfold runDailyUpdate
          rw [if_neg hg, hc, hn]
        rw [h1] at h
        simp [fatalResult] at h
      | some nr =>
        have h1 : runDailyUpdate env db = runMain env cs nr db := by
          unfold runDailyUpdate
          rw [if_neg hg, hc, hn]
        rw [h1] at h
        obtain ⟨s, hmain, hlog⟩ := runMain_spec env cs nr db
        rw [hmain] at h
        have hsucc : statusOf s.errors s.updated = RunStatus.success := h
        rw [h1, hmain]
        have hguard2 : ∃ r ∈ (⟨env.run_date, statusOf s.errors s.updated, s.detail, 0⟩ :
            LogRow) :: s.db.pipeline_log, r.run_date = env.run_date ∧
            r.status = RunStatus.success := by
          refine ⟨⟨env.run_date, statusOf s.errors s.updated, s.detail, 0⟩,
            List.mem_cons_self _ _, rfl, hsucc⟩
        unfold runDailyUpdate
        rw [if_pos hguard2]

/-- C6 witness: a concrete successful first run (empty country list, all
shared fetches fine), followed by a skipped second run. -/
theorem second_run_skips_witness :
    runDailyUpdate envOk (runDailyUpdate envOk dbEmpty).1 =
      ((runDailyUpdate envOk dbEmpty).1, skippedResult 1) :=
  second_run_skips envOk dbEmpty rfl

/-- C7 counterexample: a run that dies at the prelude (countries load
fails) returns status `error` but writes NO run-log row, refuting
"including runs that end fatally at the prelude". -/
theorem fatal_prelude_no_log_counterexample :
    (runDailyUpdate envFatal dbEmpty).1.pipeline_log = [] ∧
    (runDailyUpdate envFatal dbEmpty).2.status = RunStatus.error ∧
    (runDailyUpdate envFatal dbEmpty).2.skipped = false :=
  ⟨rfl, rfl, rfl⟩

/-- C7 amended: every execution that passes the idempotency guard AND
survives the prelude writes exactly one run-log row, dated with the run
date and carrying `success` when no errors were collected, `partial`
when some error occurred but at least one country was updated, and
`error` otherwise; a fatal-prelude execution writes no row. -/
theorem run_log_written (env : Env) (db : Db)
    (hg : ¬∃ r ∈ db.pipeline_log, r.run_date = env.run_date ∧ r.status = RunStatus.success)
    (cs : List Country) (hc : env.countriesResult = some cs)
    (nr : List NormRow) (hn : env.normResult = some nr) :
    ∃ row : LogRow,
      (runDailyUpdate env db).1.pipeline_log = row :: db.pipeline_log ∧
      row.run_date = env.run_date ∧
      (runDailyUpdate env db).2.status = row.status ∧
      row.status =
        (if (runDailyUpdate env db).2.errors = [] then RunStatus.success
         else if 0 < (runDailyUpdate env db).2.countries_updated then RunStatus.partialRun
         else RunStatus.error) ∧
      (runDailyUpdate env db).2.skipped = false := by
  have h1 : runDailyUpdate env db = runMain env cs nr db := by
    unfold runDailyUpdate
    rw [if_neg hg, hc, hn]
  obtain ⟨s, hmain, hlog⟩ := runMain_spec env cs nr db
  refine ⟨⟨env.run_date, statusOf s.errors s.updated, s.detail, 0⟩, ?_, rfl, ?_, ?_, ?_⟩
  · rw [h1, hmain]
    simpa using hlog
  · rw [h1, hmain]
  · rw [h1, hmain]
    simp only
    unfold statusOf
    rfl
  · rw [h1, hmain]

/-- C7 witness: the concrete error-status run (crypto fetch failed, no
countries) writes its single log row. -/
theorem run_log_written_witness :
    ∃ row : LogRow,
      (runDailyUpdate envErr dbEmpty).1.pipeline_log = row :: dbEmpty.pipeline_log ∧
      row.run_date = 1 ∧
      (runDailyUpdate envErr dbEmpty).2.status = row.status ∧
      row.status =
        (if (runDailyUpdate envErr dbEmpty).2.errors = [] then RunStatus.success
         else if 0 < (runDailyUpdate envErr dbEmpty).2.countries_updated then
           RunStatus.partialRun
         else RunStatus.error) ∧
      (runDailyUpdate envErr dbEmpty).2.skipped = false :=
  run_log_written envErr dbEmpty (by simp [dbEmpty]) [] rfl [] rfl

/-- C9: when the FX fetch fails for a country, that iteration's upsert
payload carries no `fx_close` and no `fx_vol` key, is dated with the
run's UTC date, and the upsert therefore preserves the previously stored
values of both columns on the existing `(country, date)` row — while
`data_flags` and `updated_at` are rewritten unconditionally. -/
theorem fx_failure_preserves_columns (env : Env) (normRows : List NormRow) (db : Db)
    (c : Country) (hfx : env.fxDay c.iso2 = none) :
    (countryPayload env normRows db c).fx_close = none ∧
    (countryPayload env normRows db c).fx_vol = none ∧
    (countryPayload env normRows db c).date = env.run_date ∧
    ∀ row ∈ db.metrics_daily, row.country_id = c.id → row.date = env.run_date →
      mergeRow row (countryPayload env normRows db c) ∈
        (applyUpsert db (countryPayload env normRows db c)).metrics_daily ∧
      (mergeRow row (countryPayload env normRows db c)).fx_close = row.fx_close ∧
      (mergeRow row (countryPayload env normRows db c)).fx_vol = row.fx_vol ∧
      (mergeRow row (countryPayload env normRows db c)).data_flags =
        some (countryPayload env normRows db c).data_flags ∧
      (mergeRow row (countryPayload env normRows db c)).updated_at = some env.now := by
  set p := countryPayload env normRows db c with hp
  have hclose : p.fx_close = none := by
    rw [hp]
    simp only [countryPayload, hfx, Option.map_none']
  have hvol : p.fx_vol = none := by
    rw [hp]
    simp [countryPayload, hfx]
  have hdate : p.date = env.run_date := by
    rw [hp]
    simp only [countryPayload, hfx, Option.map_none', Option.getD_none]
  have hcid : p.country_id = c.id := rfl
  have hnow : p.updated_at = env.now := rfl
  refine ⟨hclose, hvol, hdate, ?_⟩
  intro row hmem hrcid hrdate
  have hkey : (row.country_id == p.country_id && row.date == p.date) = true := by
    rw [hcid, hdate, hrcid, hrdate]
    simp
  have hany : db.metrics_daily.any
      (fun r => r.country_id == p.country_id && r.date == p.date) = true :=
    List.any_eq_true.mpr ⟨row, hmem, hkey⟩
  refine ⟨?_, ?_, ?_, rfl, by rw [mergeRow, hnow]⟩
  · unfold applyUpsert
    rw [if_pos hany]
    have hmapped := List.mem_map_of_mem
      (f := fun r => if r.country_id == p.country_id && r.date == p.date
        then mergeRow r p else r) hmem
    simp only [hkey, if_true] at hmapped
    simpa using hmapped
  · rw [mergeRow]
    simp only [hclose, mergeField]
  · rw [mergeRow]
    simp only [hvol, mergeField]

/-- A store state holding one prior row for country 7 with stored
`fx_close` and `fx_vol`. -/
def db9 : Db :=
  ⟨[], [{ country_id := 7, date := 1, fx_close := some 1, fx_vol := some 2 }]⟩

/-- The country of the C9 witness. -/
def c9 : Country := ⟨7, "BR", "Brazil"⟩

/-- C9 witness: the theorem applied to a concrete store with one prior
row and an environment whose FX fetch fails. -/
theorem fx_failure_preserves_columns_witness :
    (countryPayload envFatal [] db9 c9).fx_close = none ∧
    (countryPayload envFatal [] db9 c9).fx_vol = none ∧
    (countryPayload envFatal [] db9 c9).date = 1 ∧
    ∀ row ∈ db9.metrics_daily, row.country_id = c9.id → row.date = 1 →
      mergeRow row (countryPayload envFatal [] db9 c9) ∈
        (applyUpsert db9 (countryPayload envFatal [] db9 c9)).metrics_daily ∧
      (mergeRow row (countryPayload envFatal [] db9 c9)).fx_close = row.fx_close ∧
      (mergeRow row (countryPayload envFatal [] db9 c9)).fx_vol = row.fx_vol ∧
      (mergeRow row (countryPayload envFatal [] db9 c9)).data_flags =
        some (countryPayload envFatal [] db9 c9).data_flags ∧
      (mergeRow row (countryPayload envFatal [] db9 c9)).updated_at = some 1 :=
  fx_failure_preserves_columns envFatal [] db9 c9 rfl

end StressMap
